import Mathlib

/-!
Verification of the Verta reputation program (src/src/lib.rs).

The program is a Solana on-chain module with three instructions:
RegisterUser, AddKarma and UpdateLevel, acting on a 9-byte account record
(u64 karma, u8 level), serialized with borsh.

Machine integers are modelled as `Nat` with explicit `% 2^64` / `% 256`
where the source wraps or casts; byte strings are `List Nat` (each entry a
byte value). Fallible operations return `Option` / `Except`.
-/

namespace Verta

/-- 2^64: the modulus of the u64 type of the `karma` field. -/
def U64MOD : Nat := 18446744073709551616

/-- 256: the modulus of the u8 type of the `level` field. -/
def U8MOD : Nat := 256

/-- `UserAccount` (lib.rs:22-30): `karma: u64`, `level: u8`.
A value originating from the Rust struct satisfies `karma < U64MOD` and
`level < U8MOD`. -/
structure UserAccount where
  karma : Nat
  level : Nat
deriving DecidableEq, Repr

/-- `UserAccount::LEN = 8 + 1` (lib.rs:34-36). -/
def UserAccount.LEN : Nat := 8 + 1

/-- Little-endian byte decomposition of a value, `n` bytes
(borsh layout of an n-byte unsigned integer). -/
def natToLEBytes : Nat → Nat → List Nat
  | 0, _ => []
  | n + 1, v => (v % 256) :: natToLEBytes n (v / 256)

/-- Value of a little-endian byte string (borsh reading of an unsigned
integer). -/
def leBytesToNat : List Nat → Nat
  | [] => 0
  | b :: bs => b + 256 * leBytesToNat bs

/-- Borsh serialization of `UserAccount` (derived `BorshSerialize`,
lib.rs:22): 8 little-endian bytes of `karma` followed by the single byte
`level`. -/
def UserAccount.serialize (r : UserAccount) : List Nat :=
  natToLEBytes 8 r.karma ++ [r.level]

/-- Borsh `UserAccount::try_from_slice` (derived `BorshDeserialize`,
lib.rs:22): reads 8 bytes little-endian for `karma`, one byte for `level`,
and fails unless the slice is consumed exactly. -/
def UserAccount.try_from_slice : List Nat → Option UserAccount
  | [b0, b1, b2, b3, b4, b5, b6, b7, l] =>
      some { karma := leBytesToNat [b0, b1, b2, b3, b4, b5, b6, b7], level := l }
  | _ => none

/-- `VertaInstruction` (lib.rs:39-58): borsh enum with tags
0 = RegisterUser, 1 = AddKarma{amount: u64}, 2 = UpdateLevel. -/
inductive VertaInstruction where
  | RegisterUser : VertaInstruction
  | AddKarma : Nat → VertaInstruction
  | UpdateLevel : VertaInstruction
deriving DecidableEq, Repr

/-- Borsh `VertaInstruction::try_from_slice` (lib.rs:72): tag byte selects
the variant; `AddKarma` additionally reads 8 bytes as a little-endian u64;
any unknown tag, short input or trailing bytes is a decode error. -/
def VertaInstruction.try_from_slice : List Nat → Option VertaInstruction
  | [0] => some .RegisterUser
  | [1, b0, b1, b2, b3, b4, b5, b6, b7] =>
      some (.AddKarma (leBytesToNat [b0, b1, b2, b3, b4, b5, b6, b7]))
  | [2] => some .UpdateLevel
  | _ => none

/-- The subset of `solana_program::program_error::ProgramError` variants the
program can produce (plus the runtime's NotEnoughAccountKeys from
`next_account_info`). The spec names `IncorrectProgramId` "IncorrectOwner"
and `BorshIoError` "DecodeError". -/
inductive ProgramError where
  | InvalidInstructionData
  | MissingRequiredSignature
  | InvalidArgument
  | IncorrectProgramId
  | NotEnoughAccountKeys
  | BorshIoError
deriving DecidableEq, Repr

/-- The fields of `AccountInfo` the program reads or writes. Public keys
are modelled as `Nat`. -/
structure AccountInfo where
  key : Nat
  is_signer : Bool
  owner : Nat
  data : List Nat
deriving DecidableEq, Repr

/-- Model of the external `Pubkey::find_program_address(&[b"user",
user.key], program_id)` (lib.rs:122): the hash-based derivation lives in
the solana library, not in this repository; any deterministic injective
pairing with a bump byte stands in for it. -/
def find_program_address (userKey : Nat) (program_id : Nat) : Nat × Nat :=
  (Nat.pair userKey program_id + 1, 255)

/-- `process_register_user` (lib.rs:102-169). Accounts: user, user_pda,
system_program. Checks the signer, the PDA address, and the owner of a
non-empty PDA; creates and initializes the record `{karma:0, level:0}`
when the PDA data is empty, otherwise leaves the account untouched.
The external `invoke_signed` call to `system_instruction::create_account`
(lib.rs:142-155) is modelled as a successful allocation that assigns the
account to `program_id`. Returns the updated account list. -/
def process_register_user (program_id : Nat) (accounts : List AccountInfo) :
    Except ProgramError (List AccountInfo) :=
  match accounts with
  | user :: user_pda :: system_program :: rest =>
    if user.is_signer = false then
      .error .MissingRequiredSignature
    else if (find_program_address user.key program_id).1 ≠ user_pda.key then
      .error .InvalidArgument
    else if user_pda.owner ≠ program_id ∧ user_pda.data ≠ [] then
      .error .IncorrectProgramId
    else if user_pda.data = [] then
      .ok (user ::
        { user_pda with
          owner := program_id,
          data := UserAccount.serialize { karma := 0, level := 0 } } ::
        system_program :: rest)
    else
      .ok (user :: user_pda :: system_program :: rest)
  | _ => .error .NotEnoughAccountKeys

/-- `process_add_karma` (lib.rs:172-205). Accounts: user_to_update_pda.
Decodes the record, performs `karma += amount` — an unchecked u64 addition,
which in the on-chain (release) build wraps modulo 2^64 — and serializes
the record back. No signer or owner check is performed (the source's TODO
comments, lib.rs:186-188). -/
def process_add_karma (program_id : Nat) (accounts : List AccountInfo)
    (amount : Nat) : Except ProgramError (List AccountInfo) :=
  match accounts with
  | user_to_update_pda :: rest =>
    match UserAccount.try_from_slice user_to_update_pda.data with
    | none => .error .BorshIoError
    | some account_data =>
      .ok ({ user_to_update_pda with
             data := UserAccount.serialize
               { account_data with
                 karma := (account_data.karma + amount) % U64MOD } } :: rest)
  | _ => .error .NotEnoughAccountKeys

/-- `process_update_level` (lib.rs:208-242). Accounts: user_pda. Decodes
the record, computes `new_level = (karma / 1000) as u8` — the cast reduces
the 64-bit quotient modulo 256 — and stores it only when it exceeds the
current level; otherwise the account is left untouched. No signer or owner
check is performed (the source's TODO, lib.rs:219). -/
def process_update_level (program_id : Nat) (accounts : List AccountInfo) :
    Except ProgramError (List AccountInfo) :=
  match accounts with
  | user_pda :: rest =>
    match UserAccount.try_from_slice user_pda.data with
    | none => .error .BorshIoError
    | some account_data =>
      let new_level := (account_data.karma / 1000) % U8MOD
      if new_level > account_data.level then
        .ok ({ user_pda with
               data := UserAccount.serialize
                 { account_data with level := new_level } } :: rest)
      else
        .ok (user_pda :: rest)
  | _ => .error .NotEnoughAccountKeys

/-- `process_instruction` (lib.rs:64-97): decodes the instruction bytes,
mapping a decode failure to `InvalidInstructionData`, then dispatches. -/
def process_instruction (program_id : Nat) (accounts : List AccountInfo)
    (instruction_data : List Nat) : Except ProgramError (List AccountInfo) :=
  match VertaInstruction.try_from_slice instruction_data with
  | none => .error .InvalidInstructionData
  | some .RegisterUser => process_register_user program_id accounts
  | some (.AddKarma amount) => process_add_karma program_id accounts amount
  | some .UpdateLevel => process_update_level program_id accounts

/-- The two mutating operations, at the level of a single record. -/
inductive Op where
  | addKarma : Nat → Op
  | updateLevel : Op
deriving DecidableEq, Repr

/-- The per-record effect of a successful `process_add_karma` /
`process_update_level` call (lib.rs:194 and lib.rs:226-232): AddKarma wraps
the u64 addition, UpdateLevel stores `(karma / 1000) as u8` when it exceeds
the current level. -/
def stepRecord (r : UserAccount) : Op → UserAccount
  | .addKarma amount => { r with karma := (r.karma + amount) % U64MOD }
  | .updateLevel =>
      if (r.karma / 1000) % U8MOD > r.level then
        { r with level := (r.karma / 1000) % U8MOD }
      else r

/-- Folding a sequence of operations over a record. -/
def runOps (r : UserAccount) : List Op → UserAccount
  | [] => r
  | op :: ops => runOps (stepRecord r op) ops

/-- The sequence performs no wrapping u64 addition: every AddKarma along
the run satisfies `karma + amount < 2^64`. -/
def noWrapFrom (r : UserAccount) : List Op → Prop
  | [] => True
  | .addKarma a :: ops =>
      r.karma + a < U64MOD ∧ noWrapFrom (stepRecord r (.addKarma a)) ops
  | .updateLevel :: ops => noWrapFrom (stepRecord r .updateLevel) ops

instance instDecNoWrapFrom (r : UserAccount) (ops : List Op) :
    Decidable (noWrapFrom r ops) := by
  induction ops generalizing r with
  | nil => exact isTrue trivial
  | cons op ops ih =>
    cases op with
    | addKarma a => exact @instDecidableAnd _ _ inferInstance (ih _)
    | updateLevel => exact ih _

/-! ## Codec lemmas -/

theorem leBytesToNat_natToLEBytes (n v : Nat) (h : v < 256 ^ n) :
    leBytesToNat (natToLEBytes n v) = v := by
  induction n generalizing v with
  | zero =>
    simp only [natToLEBytes, leBytesToNat]
    omega
  | succ n ih =>
    have hdiv : v / 256 < 256 ^ n := by
      rw [Nat.div_lt_iff_lt_mul (by norm_num)]
      calc v < 256 ^ (n + 1) := h
        _ = 256 ^ n * 256 := by rw [Nat.pow_succ]
    simp only [natToLEBytes, leBytesToNat, ih (v / 256) hdiv]
    omega

theorem natToLEBytes_length (n v : Nat) : (natToLEBytes n v).length = n := by
  induction n generalizing v with
  | zero => rfl
  | succ n ih => simp [natToLEBytes, ih]

theorem serialize_length (r : UserAccount) : r.serialize.length = 9 := by
  simp [UserAccount.serialize, natToLEBytes_length]

theorem serialize_ne_nil (r : UserAccount) : r.serialize ≠ [] := by
  intro h
  have := serialize_length r
  rw [h] at this
  simp at this

theorem tfs_serialize (r : UserAccount) (hk : r.karma < U64MOD) :
    UserAccount.try_from_slice r.serialize = some r := by
  have hv : leBytesToNat (natToLEBytes 8 r.karma) = r.karma :=
    leBytesToNat_natToLEBytes 8 r.karma (by simpa [U64MOD] using hk)
  obtain ⟨k, l⟩ := r
  simp only [UserAccount.serialize, natToLEBytes, List.cons_append,
    List.nil_append, UserAccount.try_from_slice, Option.some.injEq,
    UserAccount.mk.injEq]
  refine ⟨?_, trivial⟩
  simpa only [UserAccount.serialize, natToLEBytes] using hv

/-! ## Claim theorems -/

/-- C6: for every `ReputationRecord` (a `UserAccount` with `karma` a u64
value and `level` a u8 value), `serialize` produces exactly 9 bytes — the
8-byte little-endian karma followed by the 1-byte level — and
`try_from_slice` on those bytes returns the record unchanged. -/
theorem serialize_roundtrip (r : UserAccount) (hk : r.karma < U64MOD) :
    r.serialize.length = 9 ∧
      r.serialize = natToLEBytes 8 r.karma ++ [r.level] ∧
      UserAccount.try_from_slice r.serialize = some r :=
  ⟨serialize_length r, rfl, tfs_serialize r hk⟩

theorem serialize_roundtrip_witness :
    (500 : Nat) < U64MOD ∧
      (UserAccount.mk 500 3).serialize.length = 9 ∧
      (UserAccount.mk 500 3).serialize = natToLEBytes 8 500 ++ [3] ∧
      UserAccount.try_from_slice (UserAccount.mk 500 3).serialize =
        some (UserAccount.mk 500 3) :=
  ⟨by decide, serialize_roundtrip (UserAccount.mk 500 3) (by decide)⟩

/-- C7: instruction decoding maps tag 0 to RegisterUser, tag 1 followed by
8 little-endian bytes to AddKarma of their u64 value, and tag 2 to
UpdateLevel; an unknown tag or a too-short AddKarma payload fails to
decode, and `process_instruction` turns any decode failure into
`InvalidInstructionData`. -/
theorem instruction_decode_spec :
    (VertaInstruction.try_from_slice [0] = some .RegisterUser) ∧
    (∀ b0 b1 b2 b3 b4 b5 b6 b7 : Nat,
      VertaInstruction.try_from_slice [1, b0, b1, b2, b3, b4, b5, b6, b7] =
        some (.AddKarma (leBytesToNat [b0, b1, b2, b3, b4, b5, b6, b7]))) ∧
    (VertaInstruction.try_from_slice [2] = some .UpdateLevel) ∧
    (∀ t : Nat, ∀ bs : List Nat, 2 < t →
      VertaInstruction.try_from_slice (t :: bs) = none) ∧
    (∀ bs : List Nat, bs.length < 8 →
      VertaInstruction.try_from_slice (1 :: bs) = none) ∧
    (∀ pid : Nat, ∀ accounts : List AccountInfo, ∀ d : List Nat,
      VertaInstruction.try_from_slice d = none →
      process_instruction pid accounts d = .error .InvalidInstructionData) := by
  refine ⟨rfl, fun _ _ _ _ _ _ _ _ => rfl, rfl, ?_, ?_, ?_⟩
  · intro t bs ht
    match t, ht with
    | n + 3, _ => rfl
  · intro bs h
    match bs with
    | [] => rfl
    | [_] => rfl
    | [_, _] => rfl
    | [_, _, _] => rfl
    | [_, _, _, _] => rfl
    | [_, _, _, _, _] => rfl
    | [_, _, _, _, _, _] => rfl
    | [_, _, _, _, _, _, _] => rfl
    | _ :: _ :: _ :: _ :: _ :: _ :: _ :: _ :: _ =>
      exact absurd h (by simp)
  · intro pid accounts d h
    simp [process_instruction, h]

theorem instruction_decode_spec_witness :
    (2 : Nat) < 3 ∧ ([] : List Nat).length < 8 ∧
      VertaInstruction.try_from_slice [1, 244, 1, 0, 0, 0, 0, 0, 0] =
        some (.AddKarma (leBytesToNat [244, 1, 0, 0, 0, 0, 0, 0])) ∧
      VertaInstruction.try_from_slice [3] = none ∧
      VertaInstruction.try_from_slice [1] = none ∧
      process_instruction 0 [] [3] = .error .InvalidInstructionData :=
  ⟨by decide, by decide,
   instruction_decode_spec.2.1 244 1 0 0 0 0 0 0,
   instruction_decode_spec.2.2.2.1 3 [] (by decide),
   instruction_decode_spec.2.2.2.2.1 [] (by decide),
   instruction_decode_spec.2.2.2.2.2 0 [] [3]
     (instruction_decode_spec.2.2.2.1 3 [] (by decide))⟩

/-- C1 (code bug): on a registered record with karma 2^64 - 1, AddKarma
with amount 1 succeeds and stores karma 0 — the unchecked u64 addition
wraps — instead of failing with an `ArithmeticOverflow` error and leaving
the karma unchanged, as the spec requires. -/
theorem add_karma_overflow_wraps :
    process_add_karma 7
      [AccountInfo.mk 11 false 7 (UserAccount.mk 18446744073709551615 3).serialize] 1 =
      .ok [AccountInfo.mk 11 false 7 (UserAccount.mk 0 3).serialize] := rfl

/-- C2 counterexample: on a record with karma 256000 and level 0,
UpdateLevel runs to completion successfully but leaves the level at 0,
while floor(256000 / 1000) = 256 ≠ 0: the stored level does not equal
floor(karma / 1000). -/
theorem update_level_floor_cex :
    process_update_level 5
      [AccountInfo.mk 11 false 5 (UserAccount.mk 256000 0).serialize] =
      .ok [AccountInfo.mk 11 false 5 (UserAccount.mk 256000 0).serialize] ∧
    (256000 : Nat) / 1000 ≠ 0 := ⟨rfl, by decide⟩

/-- C2 amended: after UpdateLevel runs to completion on a record `r`, the
stored level is `max r.level (floor(r.karma / 1000) mod 256)`; this equals
`floor(r.karma / 1000)` whenever `floor(r.karma / 1000) < 256` and the
prior level does not exceed it. -/
theorem update_level_result (pid : Nat) (a : AccountInfo) (r : UserAccount)
    (rest : List AccountInfo) (hd : a.data = r.serialize)
    (hk : r.karma < U64MOD) :
    process_update_level pid (a :: rest) =
      .ok ({ a with data :=
        (UserAccount.mk r.karma
          (max r.level ((r.karma / 1000) % U8MOD))).serialize } :: rest) ∧
    (r.level ≤ r.karma / 1000 → r.karma / 1000 < 256 →
      max r.level ((r.karma / 1000) % U8MOD) = r.karma / 1000) := by
  constructor
  · simp only [process_update_level, hd, tfs_serialize r hk]
    split
    next h =>
      have : max r.level ((r.karma / 1000) % U8MOD) =
          (r.karma / 1000) % U8MOD := Nat.max_eq_right (Nat.le_of_lt h)
      rw [this]
    next h =>
      have : max r.level ((r.karma / 1000) % U8MOD) = r.level :=
        Nat.max_eq_left (Nat.le_of_not_lt h)
      rw [this, ← hd]
  · intro h1 h2
    rw [Nat.mod_eq_of_lt (by simpa [U8MOD] using h2)]
    exact Nat.max_eq_right h1

theorem update_level_result_witness :
    process_update_level 5
      [AccountInfo.mk 11 false 5 (UserAccount.mk 2000 0).serialize] =
      .ok [AccountInfo.mk 11 false 5
        (UserAccount.mk 2000 (max 0 ((2000 / 1000) % U8MOD))).serialize] :=
  (update_level_result 5
    (AccountInfo.mk 11 false 5 (UserAccount.mk 2000 0).serialize)
    (UserAccount.mk 2000 0) [] rfl (by decide)).1

/-- C9: UpdateLevel's candidate level is the u8 cast
`floor(karma / 1000) mod 256`: the level after the step is
`max level (floor(karma / 1000) mod 256)`; in particular a record with
karma 256999 and level 7 is left entirely unchanged, because the candidate
256 mod 256 = 0 does not exceed 7. -/
theorem update_level_cast_mod256 :
    (∀ r : UserAccount, (stepRecord r .updateLevel).level =
      max r.level ((r.karma / 1000) % U8MOD)) ∧
    process_update_level 6
      [AccountInfo.mk 12 true 6 (UserAccount.mk 256999 7).serialize] =
      .ok [AccountInfo.mk 12 true 6 (UserAccount.mk 256999 7).serialize] := by
  constructor
  · intro r
    simp only [stepRecord]
    split
    next h => exact (Nat.max_eq_right (Nat.le_of_lt h)).symm
    next h => exact (Nat.max_eq_left (Nat.le_of_not_lt h)).symm
  · rfl

/-- The level-vs-karma invariant is preserved along any run whose AddKarma
steps do not wrap. -/
theorem level_le_floor_preserved (ops : List Op) :
    ∀ r : UserAccount, r.level ≤ r.karma / 1000 → noWrapFrom r ops →
      (runOps r ops).level ≤ (runOps r ops).karma / 1000 := by
  induction ops with
  | nil => intro r hr _; exact hr
  | cons op ops ih =>
    intro r hr hw
    cases op with
    | addKarma a =>
      obtain ⟨h1, h2⟩ := hw
      refine ih _ ?_ h2
      simp only [stepRecord, Nat.mod_eq_of_lt h1]
      exact hr.trans (Nat.div_le_div_right (Nat.le_add_right _ _))
    | updateLevel =>
      refine ih _ ?_ hw
      simp only [stepRecord]
      split
      next => exact Nat.mod_le _ _
      next => exact hr

/-- C3 counterexample: starting from a fresh record {karma 0, level 0},
the sequence AddKarma 255000; UpdateLevel; AddKarma (2^64 - 255000) — all
three calls succeed in the code — wraps the karma back to 0 while the
level is 255, so the stored level exceeds floor(karma / 1000) = 0. -/
theorem level_invariant_cex :
    runOps (UserAccount.mk 0 0)
        [.addKarma 255000, .updateLevel, .addKarma 18446744073709296616] =
      UserAccount.mk 0 255 ∧
    (255 : Nat) > 0 / 1000 := ⟨rfl, by decide⟩

/-- C3 amended: in every state reachable from a freshly registered record
{karma 0, level 0} by successful AddKarma and UpdateLevel operations none
of whose additions wraps 64 bits, the stored level never exceeds
floor(karma / 1000). -/
theorem level_le_floor_of_noWrap (ops : List Op)
    (h : noWrapFrom (UserAccount.mk 0 0) ops) :
    (runOps (UserAccount.mk 0 0) ops).level ≤
      (runOps (UserAccount.mk 0 0) ops).karma / 1000 :=
  level_le_floor_preserved ops (UserAccount.mk 0 0) (Nat.le_refl 0) h

theorem level_le_floor_of_noWrap_witness :
    noWrapFrom (UserAccount.mk 0 0) [.addKarma 1500, .updateLevel] ∧
      (runOps (UserAccount.mk 0 0) [.addKarma 1500, .updateLevel]).level ≤
        (runOps (UserAccount.mk 0 0) [.addKarma 1500, .updateLevel]).karma / 1000 :=
  ⟨by decide, level_le_floor_of_noWrap [.addKarma 1500, .updateLevel] (by decide)⟩

/-- C8 counterexample: on a registered record with karma
18446744073709551000 and level 0, AddKarma with amount 2000 is a
successful call, but the resulting karma is 1384, not k + 2000: the
addition wrapped. -/
theorem add_karma_sum_cex :
    process_add_karma 3
      [AccountInfo.mk 11 false 3
        (UserAccount.mk 18446744073709551000 0).serialize] 2000 =
      .ok [AccountInfo.mk 11 false 3 (UserAccount.mk 1384 0).serialize] ∧
    (1384 : Nat) ≠ 18446744073709551000 + 2000 := ⟨rfl, by decide⟩

/-- Karma accumulates exactly over a non-wrapping run of AddKarma steps. -/
theorem runOps_addKarma_sum (amounts : List Nat) :
    ∀ r : UserAccount, r.karma + amounts.sum < U64MOD →
      (runOps r (amounts.map Op.addKarma)).karma = r.karma + amounts.sum ∧
      (runOps r (amounts.map Op.addKarma)).level = r.level := by
  induction amounts with
  | nil => intro r _; simp [runOps]
  | cons a as ih =>
    intro r h
    simp only [List.map_cons, runOps, List.sum_cons]
    have ha : r.karma + a < U64MOD := by
      have := as.sum.le_add_left 0
      simp only [List.sum_cons] at h
      omega
    have hstep : stepRecord r (.addKarma a) = UserAccount.mk (r.karma + a) r.level := by
      simp [stepRecord, Nat.mod_eq_of_lt ha]
    rw [hstep]
    have hrec := ih (UserAccount.mk (r.karma + a) r.level)
      (by simp only [List.sum_cons] at h; simp; omega)
    simp only at hrec
    exact ⟨by rw [hrec.1]; omega, hrec.2⟩

/-- C8 amended: a successful AddKarma call whose addition does not
overflow 64 bits takes the record from {karma k, level l} to
{karma k + amount, level l}; consequently, for every sequence of AddKarma
amounts whose sum stays below 2^64, running them from karma 0 leaves the
karma equal to the sum of the amounts (and the level untouched). -/
theorem add_karma_exact :
    (∀ pid : Nat, ∀ a : AccountInfo, ∀ r : UserAccount,
      ∀ rest : List AccountInfo, ∀ amount : Nat,
      a.data = r.serialize → r.karma + amount < U64MOD →
      process_add_karma pid (a :: rest) amount =
        .ok ({ a with data :=
          (UserAccount.mk (r.karma + amount) r.level).serialize } :: rest)) ∧
    (∀ amounts : List Nat, amounts.sum < U64MOD →
      (runOps (UserAccount.mk 0 0) (amounts.map Op.addKarma)).karma =
        amounts.sum) := by
  constructor
  · intro pid a r rest amount hd hof
    have hk : r.karma < U64MOD := by omega
    simp only [process_add_karma, hd, tfs_serialize r hk,
      Nat.mod_eq_of_lt hof]
  · intro amounts h
    have := runOps_addKarma_sum amounts (UserAccount.mk 0 0) (by simpa using h)
    simpa using this.1

theorem add_karma_exact_witness :
    (AccountInfo.mk 11 false 3 (UserAccount.mk 500 0).serialize).data =
        (UserAccount.mk 500 0).serialize ∧
      (500 : Nat) + 1500 < U64MOD ∧
      ([500, 1500] : List Nat).sum < U64MOD ∧
      process_add_karma 3
        [AccountInfo.mk 11 false 3 (UserAccount.mk 500 0).serialize] 1500 =
        .ok [AccountInfo.mk 11 false 3 (UserAccount.mk 2000 0).serialize] ∧
      (runOps (UserAccount.mk 0 0)
        (([500, 1500] : List Nat).map Op.addKarma)).karma =
        ([500, 1500] : List Nat).sum :=
  ⟨rfl, by decide, by decide,
   add_karma_exact.1 3 (AccountInfo.mk 11 false 3 (UserAccount.mk 500 0).serialize)
     (UserAccount.mk 500 0) [] 1500 rfl (by decide),
   add_karma_exact.2 [500, 1500] (by decide)⟩

/-- C4: a RegisterUser call that passes the signer and PDA-address checks
but finds the storage account non-empty and owned by a different program
fails with `IncorrectProgramId` — the error kind the spec calls
`IncorrectOwner`. -/
theorem register_wrong_owner (pid : Nat) (user pda sys : AccountInfo)
    (rest : List AccountInfo) (hs : user.is_signer = true)
    (hp : (find_program_address user.key pid).1 = pda.key)
    (ho : pda.owner ≠ pid) (hd : pda.data ≠ []) :
    process_register_user pid (user :: pda :: sys :: rest) =
      .error .IncorrectProgramId := by
  simp [process_register_user, hs, hp, ho, hd]

theorem register_wrong_owner_witness :
    (AccountInfo.mk 3 true 0 []).is_signer = true ∧
      (find_program_address 3 9).1 = 85 ∧ (4 : Nat) ≠ 9 ∧
      ([1] : List Nat) ≠ [] ∧
      process_register_user 9
        [AccountInfo.mk 3 true 0 [], AccountInfo.mk 85 false 4 [1],
         AccountInfo.mk 0 false 0 []] =
        .error .IncorrectProgramId :=
  ⟨rfl, by decide, by decide, by decide,
   register_wrong_owner 9 (AccountInfo.mk 3 true 0 [])
     (AccountInfo.mk 85 false 4 [1]) (AccountInfo.mk 0 false 0 []) []
     rfl (by decide) (by decide) (by decide)⟩

/-- C5: RegisterUser is idempotent. A first call on an empty storage
account creates it, assigns it to the program and initializes the record
to {karma 0, level 0}; any later call on the now non-empty, program-owned
account (holding an arbitrary record r — karma and level need not be 0)
succeeds and leaves every account, including the stored record, unchanged:
no error, no reset. -/
theorem register_idempotent (pid : Nat) (user pda sys : AccountInfo)
    (rest : List AccountInfo) (r : UserAccount) (hs : user.is_signer = true)
    (hp : (find_program_address user.key pid).1 = pda.key) :
    (pda.data = [] →
      process_register_user pid (user :: pda :: sys :: rest) =
        .ok (user :: { pda with
          owner := pid,
          data := (UserAccount.mk 0 0).serialize } :: sys :: rest)) ∧
    (pda.owner = pid → pda.data = r.serialize →
      process_register_user pid (user :: pda :: sys :: rest) =
        .ok (user :: pda :: sys :: rest)) := by
  constructor
  · intro hempty
    simp [process_register_user, hs, hp, hempty]
  · intro howner hdata
    have hne : pda.data ≠ [] := by rw [hdata]; exact serialize_ne_nil r
    simp [process_register_user, hs, hp, howner, hne]

theorem register_idempotent_witness :
    (AccountInfo.mk 3 true 0 []).is_signer = true ∧
      (find_program_address 3 9).1 = 85 ∧
      process_register_user 9
        [AccountInfo.mk 3 true 0 [], AccountInfo.mk 85 false 0 [],
         AccountInfo.mk 0 false 0 []] =
        .ok [AccountInfo.mk 3 true 0 [],
          AccountInfo.mk 85 false 9 (UserAccount.mk 0 0).serialize,
          AccountInfo.mk 0 false 0 []] ∧
      process_register_user 9
        [AccountInfo.mk 3 true 0 [],
         AccountInfo.mk 85 false 9 (UserAccount.mk 0 0).serialize,
         AccountInfo.mk 0 false 0 []] =
        .ok [AccountInfo.mk 3 true 0 [],
          AccountInfo.mk 85 false 9 (UserAccount.mk 0 0).serialize,
          AccountInfo.mk 0 false 0 []] :=
  ⟨rfl, by decide,
   (register_idempotent 9 (AccountInfo.mk 3 true 0 [])
     (AccountInfo.mk 85 false 0 []) (AccountInfo.mk 0 false 0 []) []
     (UserAccount.mk 0 0) rfl (by decide)).1 rfl,
   (register_idempotent 9 (AccountInfo.mk 3 true 0 [])
     (AccountInfo.mk 85 false 9 (UserAccount.mk 0 0).serialize)
     (AccountInfo.mk 0 false 0 []) [] (UserAccount.mk 0 0) rfl
     (by decide)).2 rfl rfl⟩

/-- C10: AddKarma and UpdateLevel perform no signer, ownership or
derived-address check. Each fails exactly when the account list is empty
(`NotEnoughAccountKeys`) or the first account's bytes do not decode as a
record (`BorshIoError`); with any decodable first account — whatever its
`is_signer` flag, its `owner`, and whatever program id is supplied — the
call succeeds and applies its mutation. -/
theorem no_auth_checks :
    (∀ pid amount : Nat,
      process_add_karma pid [] amount = .error .NotEnoughAccountKeys) ∧
    (∀ pid : Nat,
      process_update_level pid [] = .error .NotEnoughAccountKeys) ∧
    (∀ pid amount : Nat, ∀ a : AccountInfo, ∀ rest : List AccountInfo,
      UserAccount.try_from_slice a.data = none →
      process_add_karma pid (a :: rest) amount = .error .BorshIoError) ∧
    (∀ pid : Nat, ∀ a : AccountInfo, ∀ rest : List AccountInfo,
      UserAccount.try_from_slice a.data = none →
      process_update_level pid (a :: rest) = .error .BorshIoError) ∧
    (∀ pid amount : Nat, ∀ a : AccountInfo, ∀ rest : List AccountInfo,
      ∀ r : UserAccount, UserAccount.try_from_slice a.data = some r →
      process_add_karma pid (a :: rest) amount =
        .ok ({ a with data :=
          (UserAccount.mk ((r.karma + amount) % U64MOD) r.level).serialize }
          :: rest)) ∧
    (∀ pid : Nat, ∀ a : AccountInfo, ∀ rest : List AccountInfo,
      ∀ r : UserAccount, UserAccount.try_from_slice a.data = some r →
      ∃ a' : AccountInfo, process_update_level pid (a :: rest) =
        .ok (a' :: rest)) := by
  refine ⟨fun _ _ => rfl, fun _ => rfl, ?_, ?_, ?_, ?_⟩
  · intro pid amount a rest h
    simp [process_add_karma, h]
  · intro pid a rest h
    simp [process_update_level, h]
  · intro pid amount a rest r h
    simp [process_add_karma, h]
  · intro pid a rest r h
    simp only [process_update_level, h]
    split
    · exact ⟨_, rfl⟩
    · exact ⟨a, rfl⟩

theorem no_auth_checks_witness :
    UserAccount.try_from_slice ([7] : List Nat) = none ∧
      UserAccount.try_from_slice (UserAccount.mk 500 0).serialize =
        some (UserAccount.mk 500 0) ∧
      process_add_karma 0 [] 5 = .error .NotEnoughAccountKeys ∧
      process_update_level 0 [] = .error .NotEnoughAccountKeys ∧
      process_add_karma 1 [AccountInfo.mk 2 false 3 [7]] 5 =
        .error .BorshIoError ∧
      process_update_level 1 [AccountInfo.mk 2 false 3 [7]] =
        .error .BorshIoError ∧
      process_add_karma 1
        [AccountInfo.mk 2 false 3 (UserAccount.mk 500 0).serialize] 5 =
        .ok [AccountInfo.mk 2 false 3
          (UserAccount.mk ((500 + 5) % U64MOD) 0).serialize] ∧
      (∃ a' : AccountInfo, process_update_level 1
        [AccountInfo.mk 2 false 3 (UserAccount.mk 2500 0).serialize] =
        .ok [a']) :=
  ⟨rfl, by decide,
   no_auth_checks.1 0 5,
   no_auth_checks.2.1 0,
   no_auth_checks.2.2.1 1 5 (AccountInfo.mk 2 false 3 [7]) [] rfl,
   no_auth_checks.2.2.2.1 1 (AccountInfo.mk 2 false 3 [7]) [] rfl,
   no_auth_checks.2.2.2.2.1 1 5
     (AccountInfo.mk 2 false 3 (UserAccount.mk 500 0).serialize) []
     (UserAccount.mk 500 0) (by decide),
   no_auth_checks.2.2.2.2.2 1
     (AccountInfo.mk 2 false 3 (UserAccount.mk 2500 0).serialize) []
     (UserAccount.mk 2500 0) (by decide)⟩

end Verta
